import Mathlib

/-!
Verification development for the real-time WebSocket connection registry and
message broadcast layer of the chatbot backend
(`src/backend/src/services/websocket_manager.py` and
`src/backend/src/api/websocket.py`).

The Python code is shallowly embedded as pure Lean functions:

* Python dictionaries become functions `String -> Option _` (an absent key is
  `none`; the distinction between an absent key and a key mapped to an empty
  set is preserved, because the source prunes empty index entries).
* Python sets of connection ids become duplicate-free `List String` values
  built only through `setAdd` / `setDiscard`, which mirror `set.add` and
  `set.discard`.
* The transport (`websocket.send_text`) is a parameter `sendOk : String -> Bool`
  telling, per connection id, whether the write succeeds or raises.
* The two external collaborators (Persistence = `ChatService.save_message`,
  Responder = `ChatService.generate_response`) are parameters of a `Collab`
  record; `save_message` may raise (modelled as `Except Unit String`, the
  `ok` value being the stored id), `generate_response` never raises and
  returns `Option String` (the source catches its own exceptions and returns
  `None`).
* Raised-and-caught Python exceptions are modelled by the corresponding
  `Except`/`Option` branches; every handler in scope catches all exceptions,
  so the embedded step functions are total.
* Timestamps (`datetime.now()`) are not modelled; no verified property
  mentions them.
-/

namespace WS
/-- Model of `ConnectionInfo` (websocket_manager.py, lines 26-32); the
`websocket` transport handle is externalised into the `sendOk` parameter. -/
structure ConnectionInfo where
  connection_id : String
  user_id : String
  tenant_id : String
  session_id : String
deriving DecidableEq

/-- A secondary index: one of `user_connections`, `session_connections`,
`tenant_connections` — a Python dict mapping a key to a set of ids. -/
abbrev Index := String → Option (List String)

/-- Model of Python `set.add` on an id set represented as a list. -/
def setAdd (s : List String) (x : String) : List String :=
  if x ∈ s then s else s ++ [x]

/-- Model of Python `set.discard` on an id set represented as a list. -/
def setDiscard (s : List String) (x : String) : List String :=
  s.filter (fun y => y ≠ x)

/-- Model of the index-update idiom of `WebSocketManager.connect`
(lines 74-84): create the key with an empty set when absent, then `add`. -/
def indexAdd (f : Index) (k x : String) : Index :=
  fun k' => if k' = k then some (setAdd ((f k).getD []) x) else f k'

/-- Model of the index-removal idiom of `WebSocketManager.disconnect`
(lines 111-124): when the key is present, `discard` the id and delete the
key if its set became empty. -/
def indexDiscard (f : Index) (k x : String) : Index :=
  fun k' =>
    if k' = k then
      (f k).bind (fun s => if setDiscard s x = [] then none else some (setDiscard s x))
    else f k'

/-- Model of the registry state of `WebSocketManager` (lines 38-49). -/
structure Manager where
  connections : String → Option ConnectionInfo
  user_connections : Index
  session_connections : Index
  tenant_connections : Index

/-- The state produced by `WebSocketManager.__init__`. -/
def emptyManager : Manager :=
  { connections := fun _ => none
    user_connections := fun _ => none
    session_connections := fun _ => none
    tenant_connections := fun _ => none }

/-- Registry effect of `WebSocketManager.connect` (lines 51-98).  The source
generates `connection_id` with `uuid4()`; here the id is a parameter and
freshness is an explicit hypothesis where needed.  The initial
`send_personal_message` greeting lives at the `World` level. -/
def Manager.connect (m : Manager) (cid user_id tenant_id session_id : String) :
    Manager :=
  { connections := fun k =>
      if k = cid then some ⟨cid, user_id, tenant_id, session_id⟩
      else m.connections k
    user_connections := indexAdd m.user_connections user_id cid
    session_connections := indexAdd m.session_connections session_id cid
    tenant_connections := indexAdd m.tenant_connections tenant_id cid }

/-- Model of `WebSocketManager.disconnect` (lines 100-129): no-op on an
unknown id, otherwise remove the record and discard the id from all three
indices, pruning emptied keys. -/
def Manager.disconnect (m : Manager) (cid : String) : Manager :=
  match m.connections cid with
  | none => m
  | some info =>
    { connections := fun k => if k = cid then none else m.connections k
      user_connections := indexDiscard m.user_connections info.user_id cid
      session_connections := indexDiscard m.session_connections info.session_id cid
      tenant_connections := indexDiscard m.tenant_connections info.tenant_id cid }

/-- One registry operation, for stating preservation over arbitrary
connect / disconnect histories. -/
inductive RegOp where
  | connect (cid user_id tenant_id session_id : String)
  | disconnect (cid : String)
deriving DecidableEq

/-- Apply one registry operation. -/
def applyOp (m : Manager) : RegOp → Manager
  | .connect cid u t s => m.connect cid u t s
  | .disconnect cid => m.disconnect cid

/-- Apply a whole history of registry operations, oldest first. -/
def applyOps (m : Manager) (ops : List RegOp) : Manager :=
  ops.foldl applyOp m

/-- Validity of a history: every connect uses a fresh id, which `uuid4()`
guarantees in the source.  Disconnects are always valid. -/
def validOps : Manager → List RegOp → Bool
  | _, [] => true
  | m, op :: rest =>
    (match op with
     | .connect cid _ _ _ => (m.connections cid).isNone
     | .disconnect _ => true) && validOps (applyOp m op) rest

/-- The id `cid` is a member of the bucket of key `k` in index `f`. -/
def InBucket (f : Index) (k cid : String) : Prop :=
  ∃ s, f k = some s ∧ cid ∈ s

/-- Consistency of one secondary index with the primary `connections` map:
an id sits in the bucket of key `k` exactly when it is connected with that
key, and no bucket is an empty set. -/
def IndexConsistent (conns : String → Option ConnectionInfo)
    (proj : ConnectionInfo → String) (f : Index) : Prop :=
  (∀ k cid, InBucket f k cid ↔ ∃ info, conns cid = some info ∧ proj info = k) ∧
  (∀ k s, f k = some s → s ≠ [])

/-- The registry invariant: all three indices are consistent with the
primary connection map. -/
def Invariant (m : Manager) : Prop :=
  IndexConsistent m.connections (fun i => i.user_id) m.user_connections ∧
  IndexConsistent m.connections (fun i => i.session_id) m.session_connections ∧
  IndexConsistent m.connections (fun i => i.tenant_id) m.tenant_connections

/-- The id `cid` sits in the bucket of `k` and of no other key. -/
def ExactlyOneBucket (f : Index) (k cid : String) : Prop :=
  InBucket f k cid ∧ ∀ k', InBucket f k' cid → k' = k

/-- Model of a decoded JSON value, the result of a successful `json.loads`
on an inbound frame.  Numeric payloads are modelled as integers; no
verified property involves numbers. -/
inductive Json where
  | null
  | bool (b : Bool)
  | num (n : Int)
  | str (s : String)
  | arr (items : List Json)
  | obj (fields : List (String × Json))

/-- Whether the decoded value is a JSON object (a Python dict). -/
def Json.isObj : Json → Bool
  | .obj _ => true
  | _ => false

/-- Model of Python dict lookup `d.get(k)` on a decoded JSON object.
`json.loads` keeps the last occurrence of a duplicated key, hence the
reversed search. -/
def jget (fields : List (String × Json)) (k : String) : Option Json :=
  (fields.reverse.find? (fun p => p.1 == k)).map Prod.snd

/-- Model of Python `str.strip()` (with ASCII whitespace). -/
def pyStrip (s : String) : String :=
  String.mk (((s.data.dropWhile Char.isWhitespace).reverse.dropWhile
    Char.isWhitespace).reverse)

/-- Model of the dispatch comparison `message_data.get("type") == t`:
in Python a string compares equal only to an equal string. -/
def isType (v : Option Json) (t : String) : Bool :=
  match v with
  | some (.str s) => s == t
  | _ => false

/-- The outbound frames of websocket.py and websocket_manager.py:
`connection` (connect greeting), `message` (broadcast_chat_message wrapper
around the chat payload), `typing`, `pong`, `error`. -/
inductive Frame where
  | connection (connection_id : String)
  | message (id : String) (session_id : String) (user_id : Option String)
      (message : String) (message_type : String) (metadata : Json)
  | typing (user_id : String) (is_typing : Json) (session_id : String)
  | pong
  | error (error : String) (error_code : String)

/-- Model of `models.chat.ChatMessage` as constructed in
`handle_chat_message`; `user_id` is nullable in the schema (the column is
declared `nullable=True` with the remark that it is null for assistant
messages).  The `id` and `timestamp` columns are not modelled. -/
structure ChatMessage where
  session_id : String
  user_id : Option String
  message : String
  message_type : String
  metadata : Json

/-- Behaviour of the external collaborators for one chat turn:
`ChatService.save_message` may raise (`Except.error`) or return the stored
row (its id); `ChatService.generate_response` catches its own exceptions
and returns `none` for no content. -/
structure Collab where
  saveUser : Except Unit String
  genResponse : Option String
  saveAssistant : Except Unit String

/-- The observable world: the registry, the log of frames actually
delivered on a transport (connection id paired with the frame), and the
log of `ChatMessage` values passed to the Persistence collaborator. -/
structure World where
  mgr : Manager
  sent : List (String × Frame)
  saveCalls : List ChatMessage

/-- Model of `WebSocketManager.send_personal_message` (lines 131-142):
silently drop if the connection is unknown; on transport failure, swallow
the error and disconnect the connection instead of propagating. -/
def sendPersonal (w : World) (sendOk : String → Bool) (message : Frame)
    (connection_id : String) : World :=
  match w.mgr.connections connection_id with
  | none => w
  | some _ =>
    if sendOk connection_id then
      { w with sent := w.sent ++ [(connection_id, message)] }
    else
      { w with mgr := w.mgr.disconnect connection_id }

/-- Model of `WebSocketManager.send_message_to_session` (lines 154-162):
take a snapshot copy (`list(...)`) of the session bucket, then send to
each id in the snapshot. -/
def sendMessageToSession (w : World) (sendOk : String → Bool) (message : Frame)
    (session_id : String) : World :=
  match w.mgr.session_connections session_id with
  | none => w
  | some conn_ids =>
    conn_ids.foldl (fun w2 cid => sendPersonal w2 sendOk message cid) w

/-- Model of `WebSocketManager.broadcast_chat_message` (lines 197-203):
wrap the chat payload in a `message` frame and send it to the session. -/
def broadcastChatMessage (w : World) (sendOk : String → Bool)
    (id session_id : String) (user_id : Option String)
    (message message_type : String) (metadata : Json) : World :=
  sendMessageToSession w sendOk
    (Frame.message id session_id user_id message message_type metadata) session_id

/-- Model of `WebSocketManager.send_error_message` (lines 205-214). -/
def sendErrorMessage (w : World) (sendOk : String → Bool)
    (connection_id error error_code : String) : World :=
  sendPersonal w sendOk (Frame.error error error_code) connection_id

/-- One run of the for-loop of `WebSocketManager.broadcast_typing_indicator`
(websocket_manager.py lines 191-195).  The source iterates the live set
`session_connections[session_id]` without taking a copy.  A member whose
record is gone is skipped; a member whose record carries the sender
user_id is skipped; otherwise `send_personal_message` runs: on success the
frame is delivered, on failure the member is disconnected.  That
disconnect discards the id from `session_connections[info.session_id]`;
when that key is the iterated session, the set being iterated shrinks and
the next step of the Python iterator raises RuntimeError, so the loop
stops there — members not yet visited receive nothing, and the effects so
far (delivered frames, the disconnect) stand.  The caller catches the
error and only logs it. -/
def typingLoop (sendOk : String → Bool) (user_id : String) (message : Frame)
    (session_id : String) : List String → World → World
  | [], w => w
  | connection_id :: rest, w =>
    match w.mgr.connections connection_id with
    | none => typingLoop sendOk user_id message session_id rest w
    | some info =>
      if info.user_id ≠ user_id then
        if sendOk connection_id then
          typingLoop sendOk user_id message session_id rest
            { w with sent := w.sent ++ [(connection_id, message)] }
        else
          if info.session_id = session_id then
            { w with mgr := w.mgr.disconnect connection_id }
          else
            typingLoop sendOk user_id message session_id rest
              { w with mgr := w.mgr.disconnect connection_id }
      else typingLoop sendOk user_id message session_id rest w

/-- Model of `WebSocketManager.broadcast_typing_indicator` (lines 174-195):
send a `typing` frame to every session participant except connections whose
record carries the sender user id, iterating the live session set via
`typingLoop` (no snapshot copy is taken, unlike `send_message_to_session`). -/
def broadcastTypingIndicator (w : World) (sendOk : String → Bool)
    (user_id session_id : String) (is_typing : Json) : World :=
  let message := Frame.typing user_id is_typing session_id
  match w.mgr.session_connections session_id with
  | none => w
  | some conn_ids => typingLoop sendOk user_id message session_id conn_ids w

/-- Model of `WebSocketManager.connect` at the world level (lines 51-98):
register the connection, then send the `connection` greeting frame on the
new transport. -/
def wsConnect (w : World) (sendOk : String → Bool)
    (cid user_id tenant_id session_id : String) : World :=
  let w1 := { w with mgr := w.mgr.connect cid user_id tenant_id session_id }
  sendPersonal w1 sendOk (Frame.connection cid) cid

/-- Model of `message_data.get("data", \x7b\x7d).get("message", "")`
(websocket.py line 134).  A non-dict `data` value or a non-string
`message` value makes the subsequent attribute access or `strip()` raise
(`Except.error`), which the chat handler catches. -/
def getMessageContent : Json → Except Unit String
  | .obj fields =>
    match jget fields "data" with
    | none => .ok ""
    | some (.obj dfields) =>
      match jget dfields "message" with
      | none => .ok ""
      | some (.str s) => .ok s
      | some _ => .error ()
    | some _ => .error ()
  | _ => .error ()

/-- Model of `message_data.get("data", \x7b\x7d).get("metadata", \x7b\x7d)`
(websocket.py line 145), evaluated only after `getMessageContent`
succeeded, so `data` is absent or an object here. -/
def getMetadata : Json → Json
  | .obj fields =>
    match jget fields "data" with
    | some (.obj dfields) => (jget dfields "metadata").getD (.obj [])
    | _ => .obj []
  | _ => .obj []

/-- Model of `message_data.get("data", \x7b\x7d).get("is_typing", False)`
(websocket.py line 214); a non-dict `data` raises, which the typing
handler catches and ignores. -/
def getIsTyping : Json → Except Unit Json
  | .obj fields =>
    match jget fields "data" with
    | none => .ok (.bool false)
    | some (.obj dfields) => .ok ((jget dfields "is_typing").getD (.bool false))
    | some _ => .error ()
  | _ => .error ()

/-- The error frame built in the `except` branch of `handle_chat_message`
(websocket.py lines 201-207) and broadcast to the whole session. -/
def processingError : Frame :=
  Frame.error "Failed to process message" "MESSAGE_PROCESSING_ERROR"

/-- Model of `handle_chat_message` (websocket.py lines 125-208): empty or
whitespace-only content is silently ignored; otherwise persist the user
turn, broadcast it, ask the Responder, and when it returns content persist
and broadcast the assistant turn.  A falsy Responder result (None or the
empty string) silently skips the assistant turn.  Any exception inside is
caught and converted into a `MESSAGE_PROCESSING_ERROR` frame broadcast to
the whole session. -/
def handleChat (w : World) (sendOk : String → Bool) (collab : Collab)
    (message_data : Json) (user_id tenant_id session_id : String) : World :=
  match getMessageContent message_data with
  | .error _ => sendMessageToSession w sendOk processingError session_id
  | .ok message_content =>
    if pyStrip message_content = "" then w
    else
      let chat_message : ChatMessage :=
        { session_id := session_id
          user_id := some user_id
          message := message_content
          message_type := "user"
          metadata := getMetadata message_data }
      let w1 := { w with saveCalls := w.saveCalls ++ [chat_message] }
      match collab.saveUser with
      | .error _ => sendMessageToSession w1 sendOk processingError session_id
      | .ok stored_id =>
        let w2 := broadcastChatMessage w1 sendOk stored_id session_id
          (some user_id) message_content "user" chat_message.metadata
        match collab.genResponse with
        | none => w2
        | some ai_response =>
          if ai_response = "" then w2
          else
            let ai_metadata : Json :=
              .obj [("model", .str "default"), ("tenant_id", .str tenant_id)]
            let ai_message : ChatMessage :=
              { session_id := session_id
                user_id := some "assistant"
                message := ai_response
                message_type := "assistant"
                metadata := ai_metadata }
            let w3 := { w2 with saveCalls := w2.saveCalls ++ [ai_message] }
            match collab.saveAssistant with
            | .error _ => sendMessageToSession w3 sendOk processingError session_id
            | .ok ai_stored_id =>
              broadcastChatMessage w3 sendOk ai_stored_id session_id
                (some "assistant") ai_response "assistant" ai_metadata

/-- Model of `handle_typing_indicator` (websocket.py lines 211-221): a
raising payload access is caught and only logged. -/
def handleTyping (w : World) (sendOk : String → Bool) (message_data : Json)
    (user_id session_id : String) : World :=
  match getIsTyping message_data with
  | .error _ => w
  | .ok is_typing => broadcastTypingIndicator w sendOk user_id session_id is_typing

/-- Model of one iteration of the receive loop of `websocket_endpoint`
(websocket.py lines 69-108).  `decoded` is the `json.loads` result
(`none` = JSONDecodeError).  A non-dict top-level value makes
`message_data.get("type")` raise AttributeError, which the generic
`except Exception` branch converts into a `SERVER_ERROR` frame.  The
function is total: the loop then continues with the next frame. -/
def processFrame (w : World) (sendOk : String → Bool) (collab : Collab)
    (decoded : Option Json)
    (connection_id user_id tenant_id session_id : String) : World :=
  match decoded with
  | none => sendErrorMessage w sendOk connection_id "Invalid JSON format" "INVALID_JSON"
  | some (.obj fields) =>
    let message_type := jget fields "type"
    if isType message_type "chat" then
      handleChat w sendOk collab (.obj fields) user_id tenant_id session_id
    else if isType message_type "typing" then
      handleTyping w sendOk (.obj fields) user_id session_id
    else if isType message_type "ping" then
      sendPersonal w sendOk Frame.pong connection_id
    else
      sendErrorMessage w sendOk connection_id "Unknown message type"
        "INVALID_MESSAGE_TYPE"
  | some _ => sendErrorMessage w sendOk connection_id "Internal server error" "SERVER_ERROR"

/-- Whether the delivery log contains an `error` frame with the given code. -/
def hasErrorCode (sent : List (String × Frame)) (code : String) : Bool :=
  sent.any (fun p =>
    match p.2 with
    | .error _ c => c == code
    | _ => false)

/-- The connection ids that received an `error` frame with the given code. -/
def errorRecipients (sent : List (String × Frame)) (code : String) : List String :=
  (sent.filter (fun p =>
    match p.2 with
    | .error _ c => c == code
    | _ => false)).map Prod.fst

/-- The `(message_type, user_id)` pairs of all persistence calls, in order. -/
def savedTypedUserIds (calls : List ChatMessage) : List (String × Option String) :=
  calls.map (fun msg => (msg.message_type, msg.user_id))

/-- The `user_id` field of every broadcast assistant `message` frame. -/
def sentAssistantUserIds (sent : List (String × Frame)) : List (Option String) :=
  sent.filterMap (fun p =>
    match p.2 with
    | .message _ _ uid _ mt _ => if mt == "assistant" then some uid else none
    | _ => none)

/-- The fan-out fold of `send_message_to_session` over a snapshot list. -/
def sessionFold (so : String → Bool) (message : Frame) (conn_ids : List String)
    (w : World) : World :=
  conn_ids.foldl (fun w2 cid => sendPersonal w2 so message cid) w

/-- A concrete two-connection registry for witnesses: user u1 and user u2,
both in session s1, tenant t1. -/
def exManager : Manager :=
  (emptyManager.connect "A" "u1" "t1" "s1").connect "B" "u2" "t1" "s1"

/-- A concrete world over `exManager` with empty logs. -/
def exWorld : World :=
  { mgr := exManager, sent := [], saveCalls := [] }

/-- A transport on which every write succeeds. -/
def exAllOk : String → Bool := fun _ => true

/-- A transport on which only the write to connection A fails. -/
def exFailA : String → Bool := fun c => !(c == "A")

/-- The decoded fields of an inbound chat frame carrying the given text. -/
def exChatFields (msg : String) : List (String × Json) :=
  [("type", .str "chat"), ("data", .obj [("message", .str msg)])]

/-- A concrete registry history: two connects and one disconnect. -/
def exOps : List RegOp :=
  [.connect "c1" "u1" "t1" "s1", .connect "c2" "u1" "t2" "s1", .disconnect "c1"]

/-- A three-connection registry for the typing counterexample: the sender
u1 on A, u2 on B, u3 on C, all in session s1. -/
def exTypingManager : Manager :=
  ((emptyManager.connect "A" "u1" "t1" "s1").connect "B" "u2" "t1" "s1").connect
    "C" "u3" "t1" "s1"

/-- A concrete world over `exTypingManager` with empty logs. -/
def exTypingWorld : World :=
  { mgr := exTypingManager, sent := [], saveCalls := [] }

/-- A transport on which only the write to connection B fails. -/
def exTypingFail : String → Bool := fun c => !(c == "B")

theorem setAdd_mem_self (s : List String) (x : String) : x ∈ setAdd s x := by
  unfold setAdd
  by_cases h : x ∈ s
  · simp [h]
  · simp [h]

theorem mem_setAdd_iff (s : List String) (x y : String) :
    y ∈ setAdd s x ↔ y ∈ s ∨ y = x := by
  unfold setAdd
  by_cases h : x ∈ s
  · simp only [if_pos h]
    constructor
    · exact fun hy => Or.inl hy
    · rintro (hy | rfl)
      · exact hy
      · exact h
  · simp [if_neg h]

theorem mem_setDiscard_iff (s : List String) (x y : String) :
    y ∈ setDiscard s x ↔ y ∈ s ∧ y ≠ x := by
  unfold setDiscard
  simp [List.mem_filter]

theorem indexAdd_self (f : Index) (key x : String) :
    indexAdd f key x key = some (setAdd ((f key).getD []) x) := by
  unfold indexAdd
  rw [if_pos rfl]

theorem indexAdd_ne (f : Index) (key x k : String) (h : k ≠ key) :
    indexAdd f key x k = f k := by
  unfold indexAdd
  rw [if_neg h]

theorem indexDiscard_ne (f : Index) (key x k : String) (h : k ≠ key) :
    indexDiscard f key x k = f k := by
  unfold indexDiscard
  rw [if_neg h]

theorem indexDiscard_self_none (f : Index) (key x : String) (h : f key = none) :
    indexDiscard f key x key = none := by
  unfold indexDiscard
  rw [if_pos rfl, h]
  rfl

theorem indexDiscard_self_some (f : Index) (key x : String) (s : List String)
    (h : f key = some s) :
    indexDiscard f key x key =
      if setDiscard s x = [] then none else some (setDiscard s x) := by
  unfold indexDiscard
  rw [if_pos rfl, h]
  rfl

/-- Membership in a bucket after an index insertion. -/
theorem inBucket_indexAdd_iff (f : Index) (key x k c : String) :
    InBucket (indexAdd f key x) k c ↔
      (k = key ∧ (c = x ∨ InBucket f key c)) ∨ (k ≠ key ∧ InBucket f k c) := by
  by_cases hk : k = key
  · subst hk
    unfold InBucket
    rw [indexAdd_self]
    constructor
    · rintro ⟨s, hs, hc⟩
      injection hs with hs
      subst hs
      rcases (mem_setAdd_iff _ _ _).mp hc with h | h
      · cases hfk : f k with
        | none => rw [hfk] at h; simp at h
        | some s0 =>
          rw [hfk] at h
          exact Or.inl ⟨rfl, Or.inr ⟨s0, rfl, by simpa using h⟩⟩
      · exact Or.inl ⟨rfl, Or.inl h⟩
    · rintro (⟨-, h | ⟨s, hs, hc⟩⟩ | ⟨hne, -⟩)
      · exact ⟨_, rfl, (mem_setAdd_iff _ _ _).mpr (Or.inr h)⟩
      · exact ⟨_, rfl, (mem_setAdd_iff _ _ _).mpr (Or.inl (by simpa [hs] using hc))⟩
      · exact absurd rfl hne
  · unfold InBucket
    rw [indexAdd_ne _ _ _ _ hk]
    constructor
    · intro h
      exact Or.inr ⟨hk, h⟩
    · rintro (⟨h, -⟩ | ⟨-, h⟩)
      · exact absurd h hk
      · exact h

/-- Membership in a bucket after an index discard. -/
theorem inBucket_indexDiscard_iff (f : Index) (key x k c : String) :
    InBucket (indexDiscard f key x) k c ↔ InBucket f k c ∧ (k = key → c ≠ x) := by
  by_cases hk : k = key
  · subst hk
    unfold InBucket
    cases hfk : f k with
    | none =>
      rw [indexDiscard_self_none f k x hfk]
      constructor
      · rintro ⟨s', hs', -⟩
        exact Option.noConfusion hs'
      · rintro ⟨⟨s', hs', -⟩, -⟩
        exact Option.noConfusion hs'
    | some s =>
      rw [indexDiscard_self_some f k x s hfk]
      by_cases hemp : setDiscard s x = []
      · rw [if_pos hemp]
        constructor
        · rintro ⟨s', hs', -⟩
          exact Option.noConfusion hs'
        · rintro ⟨⟨s', hs', hc⟩, himp⟩
          injection hs' with h0
          subst h0
          exact absurd ((mem_setDiscard_iff _ _ _).mpr ⟨hc, himp rfl⟩)
            (by rw [hemp]; exact List.not_mem_nil c)
      · rw [if_neg hemp]
        constructor
        · rintro ⟨s', hs', hc⟩
          injection hs' with h0
          subst h0
          obtain ⟨hcs, hcx⟩ := (mem_setDiscard_iff _ _ _).mp hc
          exact ⟨⟨s, rfl, hcs⟩, fun _ => hcx⟩
        · rintro ⟨⟨s', hs', hc⟩, himp⟩
          injection hs' with h0
          subst h0
          exact ⟨setDiscard s x, rfl, (mem_setDiscard_iff _ _ _).mpr ⟨hc, himp rfl⟩⟩
  · unfold InBucket
    rw [indexDiscard_ne _ _ _ _ hk]
    constructor
    · exact fun h => ⟨h, fun hkk => absurd hkk hk⟩
    · exact fun h => h.1

/-- Consistency is preserved when a fresh connection is inserted into the
primary map and its id is added to the index bucket of its key. -/
theorem indexAdd_consistent
    (conns : String → Option ConnectionInfo) (proj : ConnectionInfo → String)
    (f : Index) (cid : String) (info : ConnectionInfo)
    (hfresh : conns cid = none)
    (hcons : IndexConsistent conns proj f) :
    IndexConsistent (fun k => if k = cid then some info else conns k) proj
      (indexAdd f (proj info) cid) := by
  obtain ⟨hiff, hne⟩ := hcons
  have hnob : ∀ k, ¬ InBucket f k cid := by
    intro k hb
    obtain ⟨info0, hc0, -⟩ := (hiff k cid).mp hb
    rw [hfresh] at hc0
    exact Option.noConfusion hc0
  constructor
  · intro k c
    rw [inBucket_indexAdd_iff]
    by_cases hc : c = cid
    · subst hc
      constructor
      · rintro (⟨hk, -⟩ | ⟨-, hb⟩)
        · exact ⟨info, by simp, hk.symm⟩
        · exact absurd hb (hnob k)
      · rintro ⟨info0, hc0, hp0⟩
        simp at hc0
        subst hc0
        exact Or.inl ⟨hp0.symm, Or.inl rfl⟩
    · constructor
      · rintro (⟨hk, hcc | hb⟩ | ⟨hk, hb⟩)
        · exact absurd hcc hc
        · obtain ⟨info0, hc0, hp0⟩ := (hiff _ _).mp hb
          exact ⟨info0, by simp [hc, hc0], by rw [hp0, hk]⟩
        · obtain ⟨info0, hc0, hp0⟩ := (hiff _ _).mp hb
          exact ⟨info0, by simp [hc, hc0], hp0⟩
      · rintro ⟨info0, hc0, hp0⟩
        simp only [if_neg hc] at hc0
        have hb : InBucket f k c := (hiff _ _).mpr ⟨info0, hc0, hp0⟩
        by_cases hk : k = proj info
        · exact Or.inl ⟨hk, Or.inr (hk ▸ hb)⟩
        · exact Or.inr ⟨hk, hb⟩
  · intro k s hs
    by_cases hk : k = proj info
    · subst hk
      rw [indexAdd_self] at hs
      injection hs with h0
      subst h0
      intro hemp
      exact List.not_mem_nil cid (hemp ▸ setAdd_mem_self _ _)
    · rw [indexAdd_ne _ _ _ _ hk] at hs
      exact hne _ _ hs

/-- Consistency is preserved when a connected id is deleted from the
primary map and discarded from the index bucket of its key. -/
theorem indexDiscard_consistent
    (conns : String → Option ConnectionInfo) (proj : ConnectionInfo → String)
    (f : Index) (cid : String) (info : ConnectionInfo)
    (hcon : conns cid = some info)
    (hcons : IndexConsistent conns proj f) :
    IndexConsistent (fun k => if k = cid then none else conns k) proj
      (indexDiscard f (proj info) cid) := by
  obtain ⟨hiff, hne⟩ := hcons
  constructor
  · intro k c
    rw [inBucket_indexDiscard_iff]
    by_cases hc : c = cid
    · subst hc
      constructor
      · rintro ⟨hb, himp⟩
        obtain ⟨info0, hc0, hp0⟩ := (hiff _ _).mp hb
        rw [hcon] at hc0
        injection hc0 with h0
        subst h0
        exact absurd rfl (himp hp0.symm)
      · rintro ⟨info0, hc0, -⟩
        simp at hc0
    · constructor
      · rintro ⟨hb, -⟩
        obtain ⟨info0, hc0, hp0⟩ := (hiff _ _).mp hb
        exact ⟨info0, by simp [hc, hc0], hp0⟩
      · rintro ⟨info0, hc0, hp0⟩
        simp only [if_neg hc] at hc0
        exact ⟨(hiff _ _).mpr ⟨info0, hc0, hp0⟩, fun _ => hc⟩
  · intro k s hs
    by_cases hk : k = proj info
    · subst hk
      unfold indexDiscard at hs
      rw [if_pos rfl] at hs
      cases hfk : f (proj info) with
      | none =>
        simp only [hfk, Option.none_bind] at hs
        exact Option.noConfusion hs
      | some s0 =>
        simp only [hfk, Option.some_bind] at hs
        by_cases hemp : setDiscard s0 cid = []
        · rw [if_pos hemp] at hs
          exact Option.noConfusion hs
        · rw [if_neg hemp] at hs
          injection hs with h0
          subst h0
          exact hemp
    · rw [indexDiscard_ne _ _ _ _ hk] at hs
      exact hne _ _ hs

/-- The empty registry satisfies the invariant. -/
theorem invariant_empty : Invariant emptyManager := by
  refine ⟨⟨?_, ?_⟩, ⟨?_, ?_⟩, ⟨?_, ?_⟩⟩ <;>
    first
      | (intro k c
         constructor
         · rintro ⟨s, hs, -⟩
           exact Option.noConfusion hs
         · rintro ⟨info, hinfo, -⟩
           exact Option.noConfusion hinfo)
      | (intro k s hs
         exact Option.noConfusion hs)

/-- A fresh `connect` preserves the registry invariant. -/
theorem invariant_connect (m : Manager) (cid u t s : String)
    (hfresh : m.connections cid = none) (hinv : Invariant m) :
    Invariant (m.connect cid u t s) := by
  obtain ⟨hu, hs, ht⟩ := hinv
  exact ⟨indexAdd_consistent m.connections _ m.user_connections cid ⟨cid, u, t, s⟩ hfresh hu,
         indexAdd_consistent m.connections _ m.session_connections cid ⟨cid, u, t, s⟩ hfresh hs,
         indexAdd_consistent m.connections _ m.tenant_connections cid ⟨cid, u, t, s⟩ hfresh ht⟩

/-- A `disconnect` preserves the registry invariant. -/
theorem invariant_disconnect (m : Manager) (cid : String) (hinv : Invariant m) :
    Invariant (m.disconnect cid) := by
  obtain ⟨hu, hs, ht⟩ := hinv
  unfold Manager.disconnect
  cases hcon : m.connections cid with
  | none => exact ⟨hu, hs, ht⟩
  | some info =>
    exact ⟨indexDiscard_consistent m.connections _ m.user_connections cid info hcon hu,
           indexDiscard_consistent m.connections _ m.session_connections cid info hcon hs,
           indexDiscard_consistent m.connections _ m.tenant_connections cid info hcon ht⟩

/-- Any valid operation preserves the invariant. -/
theorem invariant_applyOp (m : Manager) (op : RegOp)
    (hv : (match op with
           | .connect cid _ _ _ => (m.connections cid).isNone
           | .disconnect _ => true) = true)
    (hinv : Invariant m) : Invariant (applyOp m op) := by
  cases op with
  | connect cid u t s =>
    exact invariant_connect m cid u t s (Option.isNone_iff_eq_none.mp hv) hinv
  | disconnect cid => exact invariant_disconnect m cid hinv

/-- Any valid history of operations preserves the invariant. -/
theorem invariant_applyOps (ops : List RegOp) :
    ∀ m : Manager, validOps m ops = true → Invariant m → Invariant (applyOps m ops) := by
  induction ops with
  | nil => intro m _ hinv; exact hinv
  | cons op rest ih =>
    intro m hv hinv
    unfold validOps at hv
    rw [Bool.and_eq_true] at hv
    exact ih (applyOp m op) hv.2 (invariant_applyOp m op hv.1 hinv)

/-- Unpacked consequences of the invariant, in the terms of the specified
index-consistency property. -/
theorem invariant_consequences (m : Manager) (hinv : Invariant m) :
    (∀ cid info, m.connections cid = some info →
       ExactlyOneBucket m.user_connections info.user_id cid ∧
       ExactlyOneBucket m.session_connections info.session_id cid ∧
       ExactlyOneBucket m.tenant_connections info.tenant_id cid) ∧
    (∀ cid, m.connections cid = none →
       ∀ k, ¬ InBucket m.user_connections k cid ∧
            ¬ InBucket m.session_connections k cid ∧
            ¬ InBucket m.tenant_connections k cid) ∧
    (∀ k, (∃ s, m.user_connections k = some s) ↔
       ∃ cid info, m.connections cid = some info ∧ info.user_id = k) ∧
    (∀ k, (∃ s, m.session_connections k = some s) ↔
       ∃ cid info, m.connections cid = some info ∧ info.session_id = k) ∧
    (∀ k, (∃ s, m.tenant_connections k = some s) ↔
       ∃ cid info, m.connections cid = some info ∧ info.tenant_id = k) := by
  obtain ⟨⟨hu, hu0⟩, ⟨hs, hs0⟩, ⟨ht, ht0⟩⟩ := hinv
  refine ⟨?_, ?_, ?_, ?_, ?_⟩
  · intro cid info hcon
    refine ⟨⟨?_, ?_⟩, ⟨?_, ?_⟩, ⟨?_, ?_⟩⟩
    · exact (hu _ _).mpr ⟨info, hcon, rfl⟩
    · intro k hb
      obtain ⟨info0, hc0, hp0⟩ := (hu _ _).mp hb
      rw [hcon] at hc0
      injection hc0 with h0
      rw [h0]
      exact hp0.symm
    · exact (hs _ _).mpr ⟨info, hcon, rfl⟩
    · intro k hb
      obtain ⟨info0, hc0, hp0⟩ := (hs _ _).mp hb
      rw [hcon] at hc0
      injection hc0 with h0
      rw [h0]
      exact hp0.symm
    · exact (ht _ _).mpr ⟨info, hcon, rfl⟩
    · intro k hb
      obtain ⟨info0, hc0, hp0⟩ := (ht _ _).mp hb
      rw [hcon] at hc0
      injection hc0 with h0
      rw [h0]
      exact hp0.symm
  · intro cid hcon k
    refine ⟨?_, ?_, ?_⟩
    · intro hb
      obtain ⟨info0, hc0, -⟩ := (hu _ _).mp hb
      rw [hcon] at hc0
      exact Option.noConfusion hc0
    · intro hb
      obtain ⟨info0, hc0, -⟩ := (hs _ _).mp hb
      rw [hcon] at hc0
      exact Option.noConfusion hc0
    · intro hb
      obtain ⟨info0, hc0, -⟩ := (ht _ _).mp hb
      rw [hcon] at hc0
      exact Option.noConfusion hc0
  · intro k
    constructor
    · rintro ⟨s, hsk⟩
      cases s with
      | nil => exact absurd hsk (fun h => hu0 _ _ h rfl)
      | cons c cs =>
        obtain ⟨info0, hc0, hp0⟩ := (hu _ _).mp ⟨c :: cs, hsk, List.mem_cons_self c cs⟩
        exact ⟨c, info0, hc0, hp0⟩
    · rintro ⟨cid, info, hcon, hproj⟩
      obtain ⟨s, hsk, -⟩ := (hu _ _).mpr ⟨info, hcon, hproj⟩
      exact ⟨s, hsk⟩
  · intro k
    constructor
    · rintro ⟨s, hsk⟩
      cases s with
      | nil => exact absurd hsk (fun h => hs0 _ _ h rfl)
      | cons c cs =>
        obtain ⟨info0, hc0, hp0⟩ := (hs _ _).mp ⟨c :: cs, hsk, List.mem_cons_self c cs⟩
        exact ⟨c, info0, hc0, hp0⟩
    · rintro ⟨cid, info, hcon, hproj⟩
      obtain ⟨s, hsk, -⟩ := (hs _ _).mpr ⟨info, hcon, hproj⟩
      exact ⟨s, hsk⟩
  · intro k
    constructor
    · rintro ⟨s, hsk⟩
      cases s with
      | nil => exact absurd hsk (fun h => ht0 _ _ h rfl)
      | cons c cs =>
        obtain ⟨info0, hc0, hp0⟩ := (ht _ _).mp ⟨c :: cs, hsk, List.mem_cons_self c cs⟩
        exact ⟨c, info0, hc0, hp0⟩
    · rintro ⟨cid, info, hcon, hproj⟩
      obtain ⟨s, hsk, -⟩ := (ht _ _).mpr ⟨info, hcon, hproj⟩
      exact ⟨s, hsk⟩

theorem disconnect_connections_self (m : Manager) (cid : String) :
    (m.disconnect cid).connections cid = none := by
  unfold Manager.disconnect
  cases hcon : m.connections cid with
  | none => exact hcon
  | some info => simp

theorem disconnect_connections_ne (m : Manager) (cid c : String) (h : c ≠ cid) :
    (m.disconnect cid).connections c = m.connections c := by
  unfold Manager.disconnect
  cases hcon : m.connections cid with
  | none => rfl
  | some info => simp [h]

theorem disconnect_connections_le (m : Manager) (cid c : String)
    (i : ConnectionInfo) (h : (m.disconnect cid).connections c = some i) :
    m.connections c = some i := by
  by_cases hc : c = cid
  · subst hc
    rw [disconnect_connections_self] at h
    exact Option.noConfusion h
  · rw [disconnect_connections_ne m cid c hc] at h
    exact h

theorem sendPersonal_saveCalls (w : World) (so : String → Bool) (f : Frame)
    (cid : String) : (sendPersonal w so f cid).saveCalls = w.saveCalls := by
  unfold sendPersonal
  cases w.mgr.connections cid with
  | none => rfl
  | some info =>
    by_cases h : so cid = true
    · rw [if_pos h]
    · rw [if_neg h]

theorem sendPersonal_mgr_of_sendOk (w : World) (so : String → Bool) (f : Frame)
    (cid : String) (h : so cid = true) :
    (sendPersonal w so f cid).mgr = w.mgr := by
  unfold sendPersonal
  cases w.mgr.connections cid with
  | none => rfl
  | some info => rw [if_pos h]

theorem sendPersonal_connections_of_sendOk (w : World) (so : String → Bool)
    (f : Frame) (cid c : String) (h : so c = true) :
    (sendPersonal w so f cid).mgr.connections c = w.mgr.connections c := by
  unfold sendPersonal
  cases w.mgr.connections cid with
  | none => rfl
  | some info =>
    by_cases hok : so cid = true
    · rw [if_pos hok]
    · rw [if_neg hok]
      have hc : c ≠ cid := by
        intro he
        rw [he] at h
        rw [h] at hok
        exact hok rfl
      exact disconnect_connections_ne w.mgr cid c hc

theorem sendPersonal_connections_ne (w : World) (so : String → Bool) (f : Frame)
    (cid c : String) (h : c ≠ cid) :
    (sendPersonal w so f cid).mgr.connections c = w.mgr.connections c := by
  unfold sendPersonal
  cases w.mgr.connections cid with
  | none => rfl
  | some info =>
    by_cases hok : so cid = true
    · rw [if_pos hok]
    · rw [if_neg hok]
      exact disconnect_connections_ne w.mgr cid c h

theorem sendPersonal_connections_le (w : World) (so : String → Bool) (f : Frame)
    (cid c : String) (i : ConnectionInfo)
    (h : (sendPersonal w so f cid).mgr.connections c = some i) :
    w.mgr.connections c = some i := by
  unfold sendPersonal at h
  cases hcon : w.mgr.connections cid with
  | none => rw [hcon] at h; exact h
  | some info =>
    rw [hcon] at h
    by_cases hok : so cid = true
    · rw [if_pos hok] at h; exact h
    · rw [if_neg hok] at h
      exact disconnect_connections_le w.mgr cid c i h

theorem sendPersonal_sent_mem (w : World) (so : String → Bool) (f : Frame)
    (cid : String) (p : String × Frame) (h : p ∈ w.sent) :
    p ∈ (sendPersonal w so f cid).sent := by
  unfold sendPersonal
  cases w.mgr.connections cid with
  | none => exact h
  | some info =>
    by_cases hok : so cid = true
    · rw [if_pos hok]
      exact List.mem_append_left _ h
    · rw [if_neg hok]
      exact h

theorem sendPersonal_sent_delta (w : World) (so : String → Bool) (f : Frame)
    (cid : String) (p : String × Frame)
    (h : p ∈ (sendPersonal w so f cid).sent) : p ∈ w.sent ∨ p = (cid, f) := by
  unfold sendPersonal at h
  cases hcon : w.mgr.connections cid with
  | none => rw [hcon] at h; exact Or.inl h
  | some info =>
    rw [hcon] at h
    by_cases hok : so cid = true
    · rw [if_pos hok] at h
      rcases List.mem_append.mp h with h1 | h1
      · exact Or.inl h1
      · exact Or.inr (List.mem_singleton.mp h1)
    · rw [if_neg hok] at h
      exact Or.inl h

theorem sendPersonal_delivers (w : World) (so : String → Bool) (f : Frame)
    (cid : String) (i : ConnectionInfo) (hcon : w.mgr.connections cid = some i)
    (hok : so cid = true) :
    (sendPersonal w so f cid).sent = w.sent ++ [(cid, f)] := by
  unfold sendPersonal
  rw [hcon, if_pos hok]

theorem sendMessageToSession_eq (w : World) (so : String → Bool) (message : Frame)
    (session_id : String) (conn_ids : List String)
    (h : w.mgr.session_connections session_id = some conn_ids) :
    sendMessageToSession w so message session_id = sessionFold so message conn_ids w := by
  unfold sendMessageToSession sessionFold
  rw [h]

theorem sessionFold_saveCalls (so : String → Bool) (message : Frame)
    (l : List String) : ∀ w : World, (sessionFold so message l w).saveCalls = w.saveCalls := by
  induction l with
  | nil => intro w; rfl
  | cons hd tl ih =>
    intro w
    unfold sessionFold
    rw [List.foldl_cons]
    have := ih (sendPersonal w so message hd)
    unfold sessionFold at this
    rw [this, sendPersonal_saveCalls]

theorem sessionFold_mgr_all (so : String → Bool) (message : Frame)
    (l : List String) (hall : ∀ c, so c = true) :
    ∀ w : World, (sessionFold so message l w).mgr = w.mgr := by
  induction l with
  | nil => intro w; rfl
  | cons hd tl ih =>
    intro w
    unfold sessionFold
    rw [List.foldl_cons]
    have := ih (sendPersonal w so message hd)
    unfold sessionFold at this
    rw [this, sendPersonal_mgr_of_sendOk w so message hd (hall hd)]

theorem sessionFold_connections_of_sendOk (so : String → Bool) (message : Frame)
    (l : List String) (c : String) (hok : so c = true) :
    ∀ w : World, (sessionFold so message l w).mgr.connections c = w.mgr.connections c := by
  induction l with
  | nil => intro w; rfl
  | cons hd tl ih =>
    intro w
    unfold sessionFold
    rw [List.foldl_cons]
    have := ih (sendPersonal w so message hd)
    unfold sessionFold at this
    rw [this, sendPersonal_connections_of_sendOk w so message hd c hok]

theorem sessionFold_connections_notin (so : String → Bool) (message : Frame)
    (l : List String) (c : String) (hnot : c ∉ l) :
    ∀ w : World, (sessionFold so message l w).mgr.connections c = w.mgr.connections c := by
  induction l with
  | nil => intro w; rfl
  | cons hd tl ih =>
    intro w
    unfold sessionFold
    rw [List.foldl_cons]
    have htl : c ∉ tl := fun h => hnot (List.mem_cons_of_mem hd h)
    have hhd : c ≠ hd := fun h => hnot (h ▸ List.mem_cons_self hd tl)
    have := ih htl (sendPersonal w so message hd)
    unfold sessionFold at this
    rw [this, sendPersonal_connections_ne w so message hd c hhd]

theorem sessionFold_sent_mem (so : String → Bool) (message : Frame)
    (l : List String) (p : String × Frame) :
    ∀ w : World, p ∈ w.sent → p ∈ (sessionFold so message l w).sent := by
  induction l with
  | nil => intro w h; exact h
  | cons hd tl ih =>
    intro w h
    unfold sessionFold
    rw [List.foldl_cons]
    have := ih (sendPersonal w so message hd) (sendPersonal_sent_mem w so message hd p h)
    unfold sessionFold at this
    exact this

theorem sessionFold_sent_delta (so : String → Bool) (message : Frame)
    (l : List String) (p : String × Frame) :
    ∀ w : World, p ∈ (sessionFold so message l w).sent →
      p ∈ w.sent ∨ (p.1 ∈ l ∧ p.2 = message) := by
  induction l with
  | nil => intro w h; exact Or.inl h
  | cons hd tl ih =>
    intro w h
    unfold sessionFold at h
    rw [List.foldl_cons] at h
    have h2 := ih (sendPersonal w so message hd) (by
      unfold sessionFold
      exact h)
    rcases h2 with h2 | ⟨h2a, h2b⟩
    · rcases sendPersonal_sent_delta w so message hd p h2 with h3 | h3
      · exact Or.inl h3
      · refine Or.inr ⟨?_, ?_⟩
        · rw [h3]; exact List.mem_cons_self hd tl
        · rw [h3]
    · exact Or.inr ⟨List.mem_cons_of_mem hd h2a, h2b⟩

theorem sessionFold_delivers (so : String → Bool) (message : Frame)
    (l : List String) (c : String) (hok : so c = true) :
    ∀ w : World, c ∈ l → (∃ i, w.mgr.connections c = some i) →
      (c, message) ∈ (sessionFold so message l w).sent := by
  induction l with
  | nil =>
    intro w hmem _
    exact absurd hmem (List.not_mem_nil c)
  | cons hd tl ih =>
    intro w hmem ⟨i, hcon⟩
    unfold sessionFold
    rw [List.foldl_cons]
    by_cases hc : c = hd
    · subst hc
      have hdel := sendPersonal_delivers w so message c i hcon hok
      have hin : (c, message) ∈ (sendPersonal w so message c).sent := by
        rw [hdel]
        exact List.mem_append_right _ (List.mem_singleton.mpr rfl)
      exact sessionFold_sent_mem so message tl (c, message) _ hin
    · have htl : c ∈ tl := by
        rcases List.mem_cons.mp hmem with h | h
        · exact absurd h hc
        · exact h
      have hcon2 : (sendPersonal w so message hd).mgr.connections c = some i := by
        rw [sendPersonal_connections_of_sendOk w so message hd c hok]
        exact hcon
      have := ih (sendPersonal w so message hd) htl ⟨i, hcon2⟩
      unfold sessionFold at this
      exact this

theorem sessionFold_connections_none (so : String → Bool) (message : Frame)
    (l : List String) (c : String) :
    ∀ w : World, w.mgr.connections c = none →
      (sessionFold so message l w).mgr.connections c = none := by
  induction l with
  | nil => intro w h; exact h
  | cons hd tl ih =>
    intro w h
    unfold sessionFold
    rw [List.foldl_cons]
    have h2 : (sendPersonal w so message hd).mgr.connections c = none := by
      cases h3 : (sendPersonal w so message hd).mgr.connections c with
      | none => rfl
      | some i =>
        rw [sendPersonal_connections_le w so message hd c i h3] at h
        exact Option.noConfusion h
    have := ih (sendPersonal w so message hd) h2
    unfold sessionFold at this
    exact this

theorem sessionFold_removes (so : String → Bool) (message : Frame)
    (l : List String) (c : String) (hfail : so c = false) :
    ∀ w : World, c ∈ l → (sessionFold so message l w).mgr.connections c = none := by
  induction l with
  | nil =>
    intro w hmem
    exact absurd hmem (List.not_mem_nil c)
  | cons hd tl ih =>
    intro w hmem
    unfold sessionFold
    rw [List.foldl_cons]
    by_cases hc : c = hd
    · subst hc
      have h2 : (sendPersonal w so message c).mgr.connections c = none := by
        unfold sendPersonal
        cases hcon : w.mgr.connections c with
        | none => exact hcon
        | some i =>
          rw [if_neg (by rw [hfail]; exact Bool.false_ne_true)]
          exact disconnect_connections_self w.mgr c
      exact sessionFold_connections_none so message tl c _ h2
    · have htl : c ∈ tl := by
        rcases List.mem_cons.mp hmem with h | h
        · exact absurd h hc
        · exact h
      have := ih (sendPersonal w so message hd) htl
      unfold sessionFold at this
      exact this

theorem sendMessageToSession_saveCalls (w : World) (so : String → Bool)
    (message : Frame) (session_id : String) :
    (sendMessageToSession w so message session_id).saveCalls = w.saveCalls := by
  unfold sendMessageToSession
  cases w.mgr.session_connections session_id with
  | none => rfl
  | some conn_ids => exact sessionFold_saveCalls so message conn_ids w

theorem sendMessageToSession_mgr_all (w : World) (so : String → Bool)
    (message : Frame) (session_id : String) (hall : ∀ c, so c = true) :
    (sendMessageToSession w so message session_id).mgr = w.mgr := by
  unfold sendMessageToSession
  cases w.mgr.session_connections session_id with
  | none => rfl
  | some conn_ids => exact sessionFold_mgr_all so message conn_ids hall w

theorem processFrame_chat (w : World) (so : String → Bool) (collab : Collab)
    (fields : List (String × Json)) (cid u t s : String)
    (hchat : isType (jget fields "type") "chat" = true) :
    processFrame w so collab (some (.obj fields)) cid u t s =
      handleChat w so collab (.obj fields) u t s := by
  simp only [processFrame, hchat, eq_self_iff_true, if_true]

theorem handleChat_noop (w : World) (so : String → Bool) (collab : Collab)
    (md : Json) (u t s content : String)
    (hcontent : getMessageContent md = .ok content)
    (hempty : pyStrip content = "") :
    handleChat w so collab md u t s = w := by
  simp only [handleChat, hcontent, if_pos hempty]

theorem handleChat_saveUser_error (w : World) (so : String → Bool) (collab : Collab)
    (md : Json) (u t s content : String)
    (hcontent : getMessageContent md = .ok content)
    (hne : pyStrip content ≠ "")
    (hsave : collab.saveUser = .error ()) :
    handleChat w so collab md u t s =
      sendMessageToSession
        { w with saveCalls :=
            w.saveCalls ++ [⟨s, some u, content, "user", getMetadata md⟩] }
        so processingError s := by
  simp only [handleChat, hcontent, hsave, if_neg hne]

theorem handleChat_gen_none (w : World) (so : String → Bool) (collab : Collab)
    (md : Json) (u t s content uid : String)
    (hcontent : getMessageContent md = .ok content)
    (hne : pyStrip content ≠ "")
    (hsave : collab.saveUser = .ok uid)
    (hgen : collab.genResponse = none) :
    handleChat w so collab md u t s =
      broadcastChatMessage
        { w with saveCalls :=
            w.saveCalls ++ [⟨s, some u, content, "user", getMetadata md⟩] }
        so uid s (some u) content "user" (getMetadata md) := by
  simp only [handleChat, hcontent, hsave, hgen, if_neg hne]

theorem handleChat_saveAssistant_error (w : World) (so : String → Bool)
    (collab : Collab) (md : Json) (u t s content uid resp : String)
    (hcontent : getMessageContent md = .ok content)
    (hne : pyStrip content ≠ "")
    (hsave : collab.saveUser = .ok uid)
    (hgen : collab.genResponse = some resp)
    (hrne : resp ≠ "")
    (hsa : collab.saveAssistant = .error ()) :
    handleChat w so collab md u t s =
      sendMessageToSession
        { broadcastChatMessage
            { w with saveCalls :=
                w.saveCalls ++ [⟨s, some u, content, "user", getMetadata md⟩] }
            so uid s (some u) content "user" (getMetadata md) with
          saveCalls :=
            (broadcastChatMessage
              { w with saveCalls :=
                  w.saveCalls ++ [⟨s, some u, content, "user", getMetadata md⟩] }
              so uid s (some u) content "user" (getMetadata md)).saveCalls ++
            [⟨s, some "assistant", resp, "assistant",
              .obj [("model", .str "default"), ("tenant_id", .str t)]⟩] }
        so processingError s := by
  simp only [handleChat, hcontent, hsave, hgen, hsa, if_neg hne, if_neg hrne]

theorem broadcastChatMessage_mgr_all (w : World) (so : String → Bool)
    (id session_id : String) (uid : Option String) (msg mt : String)
    (meta : Json) (hall : ∀ c, so c = true) :
    (broadcastChatMessage w so id session_id uid msg mt meta).mgr = w.mgr := by
  unfold broadcastChatMessage
  exact sendMessageToSession_mgr_all w so _ session_id hall

theorem broadcastChatMessage_saveCalls (w : World) (so : String → Bool)
    (id session_id : String) (uid : Option String) (msg mt : String)
    (meta : Json) :
    (broadcastChatMessage w so id session_id uid msg mt meta).saveCalls = w.saveCalls := by
  unfold broadcastChatMessage
  exact sendMessageToSession_saveCalls w so _ session_id

theorem broadcastChatMessage_sent_delta (w : World) (so : String → Bool)
    (id session_id : String) (uid : Option String) (msg mt : String)
    (meta : Json) (p : String × Frame)
    (h : p ∈ (broadcastChatMessage w so id session_id uid msg mt meta).sent) :
    p ∈ w.sent ∨ p.2 = Frame.message id session_id uid msg mt meta := by
  unfold broadcastChatMessage sendMessageToSession at h
  cases hb : w.mgr.session_connections session_id with
  | none => rw [hb] at h; exact Or.inl h
  | some conn_ids =>
    rw [hb] at h
    rcases sessionFold_sent_delta so _ conn_ids p w h with h1 | ⟨-, h1⟩
    · exact Or.inl h1
    · exact Or.inr h1

theorem handleChat_mgr_all (w : World) (so : String → Bool) (collab : Collab)
    (md : Json) (u t s : String) (hall : ∀ c, so c = true) :
    (handleChat w so collab md u t s).mgr = w.mgr := by
  cases hc : getMessageContent md with
  | error e =>
    cases e
    simp only [handleChat, hc]
    exact sendMessageToSession_mgr_all w so processingError s hall
  | ok content =>
    by_cases h0 : pyStrip content = ""
    · simp only [handleChat, hc, if_pos h0]
    · cases hs1 : collab.saveUser with
      | error e =>
        cases e
        simp only [handleChat, hc, if_neg h0, hs1]
        exact sendMessageToSession_mgr_all _ so processingError s hall
      | ok uid =>
        cases hg : collab.genResponse with
        | none =>
          simp only [handleChat, hc, if_neg h0, hs1, hg]
          exact broadcastChatMessage_mgr_all _ so _ _ _ _ _ _ hall
        | some resp =>
          by_cases hr : resp = ""
          · simp only [handleChat, hc, if_neg h0, hs1, hg, if_pos hr]
            exact broadcastChatMessage_mgr_all _ so _ _ _ _ _ _ hall
          · cases hs2 : collab.saveAssistant with
            | error e =>
              cases e
              simp only [handleChat, hc, if_neg h0, hs1, hg, if_neg hr, hs2]
              rw [sendMessageToSession_mgr_all _ so processingError s hall]
              exact broadcastChatMessage_mgr_all _ so _ _ _ _ _ _ hall
            | ok aid =>
              simp only [handleChat, hc, if_neg h0, hs1, hg, if_neg hr, hs2]
              rw [broadcastChatMessage_mgr_all _ so _ _ _ _ _ _ hall]
              exact broadcastChatMessage_mgr_all _ so _ _ _ _ _ _ hall

theorem disconnect_unknown (m : Manager) (cid : String)
    (h : m.connections cid = none) : m.disconnect cid = m := by
  unfold Manager.disconnect
  rw [h]

theorem disconnect_disconnect (m : Manager) (cid : String) :
    (m.disconnect cid).disconnect cid = m.disconnect cid :=
  disconnect_unknown (m.disconnect cid) cid (disconnect_connections_self m cid)

theorem inBucket_indexDiscard_ne_iff (f : Index) (key x k c : String)
    (h : c ≠ x) : InBucket (indexDiscard f key x) k c ↔ InBucket f k c := by
  rw [inBucket_indexDiscard_iff]
  constructor
  · exact fun hb => hb.1
  · exact fun hb => ⟨hb, fun _ => h⟩

theorem disconnect_inBucket_ne (m : Manager) (cid k c : String) (h : c ≠ cid) :
    (InBucket (m.disconnect cid).user_connections k c ↔
       InBucket m.user_connections k c) ∧
    (InBucket (m.disconnect cid).session_connections k c ↔
       InBucket m.session_connections k c) ∧
    (InBucket (m.disconnect cid).tenant_connections k c ↔
       InBucket m.tenant_connections k c) := by
  unfold Manager.disconnect
  cases hcon : m.connections cid with
  | none => exact ⟨Iff.rfl, Iff.rfl, Iff.rfl⟩
  | some info =>
    exact ⟨inBucket_indexDiscard_ne_iff _ _ _ _ _ h,
           inBucket_indexDiscard_ne_iff _ _ _ _ _ h,
           inBucket_indexDiscard_ne_iff _ _ _ _ _ h⟩


theorem sendMessageToSession_delivers (w : World) (so : String → Bool)
    (message : Frame) (s c : String) (i : ConnectionInfo) (bucket : List String)
    (hb : w.mgr.session_connections s = some bucket) (hm : c ∈ bucket)
    (hok : so c = true) (hcon : w.mgr.connections c = some i) :
    (c, message) ∈ (sendMessageToSession w so message s).sent := by
  rw [sendMessageToSession_eq w so message s bucket hb]
  exact sessionFold_delivers so message bucket c hok w hm ⟨i, hcon⟩

/-- Claim C1, as stated, is false on the code: with a non-empty user message
and a Responder returning no content, the pipeline emits no
MESSAGE_PROCESSING_ERROR frame at all (the user turn does stay persisted). -/
theorem claim_C1_counterexample :
    (Collab.mk (.ok "mid1") none (.ok "aid1")).genResponse = none ∧
    pyStrip "hello" ≠ "" ∧
    hasErrorCode (processFrame exWorld exAllOk (Collab.mk (.ok "mid1") none (.ok "aid1"))
      (some (.obj (exChatFields "hello"))) "A" "u1" "t1" "s1").sent
      "MESSAGE_PROCESSING_ERROR" = false ∧
    savedTypedUserIds (processFrame exWorld exAllOk (Collab.mk (.ok "mid1") none (.ok "aid1"))
      (some (.obj (exChatFields "hello"))) "A" "u1" "t1" "s1").saveCalls =
      [("user", some "u1")] := by
  decide

/-- Claim C1 (amended): when the Responder returns no content for a
non-empty user message, the pipeline silently finishes the turn after the
user persist and broadcast: the final state equals the state right after
the user-message broadcast, the persistence log gains exactly the user
turn (not rolled back), and every newly delivered frame is the user
Message frame — in particular no Error frame is sent. -/
theorem claim_C1_amended
    (w : World) (so : String → Bool) (collab : Collab)
    (fields : List (String × Json)) (cid u t s content uid : String)
    (hchat : isType (jget fields "type") "chat" = true)
    (hcontent : getMessageContent (.obj fields) = .ok content)
    (hne : pyStrip content ≠ "")
    (hsave : collab.saveUser = .ok uid)
    (hgen : collab.genResponse = none) :
    processFrame w so collab (some (.obj fields)) cid u t s =
      broadcastChatMessage
        { w with saveCalls :=
            w.saveCalls ++ [⟨s, some u, content, "user", getMetadata (.obj fields)⟩] }
        so uid s (some u) content "user" (getMetadata (.obj fields)) ∧
    (processFrame w so collab (some (.obj fields)) cid u t s).saveCalls =
      w.saveCalls ++ [⟨s, some u, content, "user", getMetadata (.obj fields)⟩] ∧
    ∀ p ∈ (processFrame w so collab (some (.obj fields)) cid u t s).sent,
      p ∈ w.sent ∨ p.2 = Frame.message uid s (some u) content "user" (getMetadata (.obj fields)) := by
  have he : processFrame w so collab (some (.obj fields)) cid u t s =
      broadcastChatMessage
        { w with saveCalls :=
            w.saveCalls ++ [⟨s, some u, content, "user", getMetadata (.obj fields)⟩] }
        so uid s (some u) content "user" (getMetadata (.obj fields)) := by
    rw [processFrame_chat w so collab fields cid u t s hchat]
    exact handleChat_gen_none w so collab (.obj fields) u t s content uid hcontent hne hsave hgen
  refine ⟨he, ?_, ?_⟩
  · rw [he, broadcastChatMessage_saveCalls]
  · intro p hp
    rw [he] at hp
    rcases broadcastChatMessage_sent_delta _ so _ _ _ _ _ _ p hp with h1 | h1
    · exact Or.inl h1
    · exact Or.inr h1

/-- Witness for claim C1 (amended) at a concrete run. -/
theorem claim_C1_amended_witness :
    (processFrame exWorld exAllOk (Collab.mk (.ok "mid1") none (.ok "aid1"))
      (some (.obj (exChatFields "hello"))) "A" "u1" "t1" "s1").saveCalls =
      exWorld.saveCalls ++
        [⟨"s1", some "u1", "hello", "user", getMetadata (.obj (exChatFields "hello"))⟩] :=
  (claim_C1_amended exWorld exAllOk (Collab.mk (.ok "mid1") none (.ok "aid1"))
    (exChatFields "hello") "A" "u1" "t1" "s1" "hello" "mid1"
    rfl rfl (by decide) rfl rfl).2.1

/-- Claim C2: evaluating the code on a full chat turn shows the assistant
ChatMessage is saved with user_id equal to the string "assistant" and the
broadcast assistant frames carry that same string — never null, although
the ChatMessage schema declares the column nullable for assistant rows. -/
theorem claim_C2_code_eval :
    savedTypedUserIds (processFrame exWorld exAllOk
        (Collab.mk (.ok "mid1") (some "hi there") (.ok "aid1"))
        (some (.obj (exChatFields "hello"))) "A" "u1" "t1" "s1").saveCalls =
      [("user", some "u1"), ("assistant", some "assistant")] ∧
    sentAssistantUserIds (processFrame exWorld exAllOk
        (Collab.mk (.ok "mid1") (some "hi there") (.ok "aid1"))
        (some (.obj (exChatFields "hello"))) "A" "u1" "t1" "s1").sent =
      [some "assistant", some "assistant"] ∧
    (some "assistant" : Option String) ≠ none := by
  decide

/-- Claim C3: over every valid history of connect and disconnect
operations from the empty registry, the index-consistency invariant holds:
a connected id sits in exactly one bucket of each of the three indices
(the bucket of its own key), a disconnected id sits in none, and an index
key is present exactly when some connection carries that key. -/
theorem claim_C3_registry_invariant (ops : List RegOp)
    (hv : validOps emptyManager ops = true) :
    Invariant (applyOps emptyManager ops) ∧
    (∀ cid info, (applyOps emptyManager ops).connections cid = some info →
       ExactlyOneBucket (applyOps emptyManager ops).user_connections info.user_id cid ∧
       ExactlyOneBucket (applyOps emptyManager ops).session_connections info.session_id cid ∧
       ExactlyOneBucket (applyOps emptyManager ops).tenant_connections info.tenant_id cid) ∧
    (∀ cid, (applyOps emptyManager ops).connections cid = none →
       ∀ k, ¬ InBucket (applyOps emptyManager ops).user_connections k cid ∧
            ¬ InBucket (applyOps emptyManager ops).session_connections k cid ∧
            ¬ InBucket (applyOps emptyManager ops).tenant_connections k cid) ∧
    (∀ k, (∃ s, (applyOps emptyManager ops).user_connections k = some s) ↔
       ∃ cid info, (applyOps emptyManager ops).connections cid = some info ∧
         info.user_id = k) ∧
    (∀ k, (∃ s, (applyOps emptyManager ops).session_connections k = some s) ↔
       ∃ cid info, (applyOps emptyManager ops).connections cid = some info ∧
         info.session_id = k) ∧
    (∀ k, (∃ s, (applyOps emptyManager ops).tenant_connections k = some s) ↔
       ∃ cid info, (applyOps emptyManager ops).connections cid = some info ∧
         info.tenant_id = k) := by
  have hinv := invariant_applyOps ops emptyManager hv invariant_empty
  obtain ⟨h1, h2, h3, h4, h5⟩ := invariant_consequences _ hinv
  exact ⟨hinv, h1, h2, h3, h4, h5⟩

/-- Witness for claim C3 on a concrete valid history. -/
theorem claim_C3_registry_invariant_witness :
    validOps emptyManager exOps = true ∧ Invariant (applyOps emptyManager exOps) :=
  ⟨by decide, (claim_C3_registry_invariant exOps (by decide)).1⟩

/-- Claim C4, as stated, is false on the code: when the user-turn persist
raises, the MESSAGE_PROCESSING_ERROR frame is broadcast to the whole
session — connection B of another user receives it too, not only the
originating connection A. -/
theorem claim_C4_counterexample :
    errorRecipients (processFrame exWorld exAllOk
        (Collab.mk (.error ()) (some "hi") (.ok "aid1"))
        (some (.obj (exChatFields "hello"))) "A" "u1" "t1" "s1").sent
        "MESSAGE_PROCESSING_ERROR" = ["A", "B"] ∧
    ("B" : String) ≠ "A" := by
  decide

/-- Claim C4 (amended): an exception in the chat steps is caught at the
chat boundary and converted into a MESSAGE_PROCESSING_ERROR Error frame
broadcast to every connection of the session (the originating connection
among them when it is registered there); processing stays total so the
loop resumes, and (absent transport failures) the registry is unchanged —
no bad chat message removes the connection. -/
theorem claim_C4_amended
    (w : World) (so : String → Bool) (collab : Collab)
    (fields : List (String × Json)) (cid u t s content : String)
    (hall : ∀ c, so c = true)
    (hchat : isType (jget fields "type") "chat" = true)
    (hcontent : getMessageContent (.obj fields) = .ok content)
    (hne : pyStrip content ≠ "") :
    (processFrame w so collab (some (.obj fields)) cid u t s).mgr = w.mgr ∧
    (collab.saveUser = .error () →
      processFrame w so collab (some (.obj fields)) cid u t s =
        sendMessageToSession
          { w with saveCalls :=
              w.saveCalls ++ [⟨s, some u, content, "user", getMetadata (.obj fields)⟩] }
          so processingError s) ∧
    (collab.saveUser = .error () →
      ∀ bucket c i, w.mgr.session_connections s = some bucket → c ∈ bucket →
        w.mgr.connections c = some i →
        (c, processingError) ∈ (processFrame w so collab (some (.obj fields)) cid u t s).sent) ∧
    (∀ uid resp, collab.saveUser = .ok uid → collab.genResponse = some resp →
      resp ≠ "" → collab.saveAssistant = .error () →
      ∀ bucket c i, w.mgr.session_connections s = some bucket → c ∈ bucket →
        w.mgr.connections c = some i →
        (c, processingError) ∈ (processFrame w so collab (some (.obj fields)) cid u t s).sent) := by
  have hpc := processFrame_chat w so collab fields cid u t s hchat
  refine ⟨?_, ?_, ?_, ?_⟩
  · rw [hpc]
    exact handleChat_mgr_all w so collab (.obj fields) u t s hall
  · intro hsv
    rw [hpc]
    exact handleChat_saveUser_error w so collab (.obj fields) u t s content hcontent hne hsv
  · intro hsv bucket c i hb hm hcon
    rw [hpc, handleChat_saveUser_error w so collab (.obj fields) u t s content hcontent hne hsv]
    exact sendMessageToSession_delivers _ so processingError s c i bucket hb hm (hall c) hcon
  · intro uid resp hsu hg hrne hsa bucket c i hb hm hcon
    rw [hpc, handleChat_saveAssistant_error w so collab (.obj fields) u t s content uid resp
      hcontent hne hsu hg hrne hsa]
    refine sendMessageToSession_delivers _ so processingError s c i bucket ?_ hm (hall c) ?_
    · show (broadcastChatMessage _ so uid s (some u) content "user"
        (getMetadata (Json.obj fields))).mgr.session_connections s = some bucket
      rw [broadcastChatMessage_mgr_all _ _ _ _ _ _ _ _ hall]
      exact hb
    · show (broadcastChatMessage _ so uid s (some u) content "user"
        (getMetadata (Json.obj fields))).mgr.connections c = some i
      rw [broadcastChatMessage_mgr_all _ _ _ _ _ _ _ _ hall]
      exact hcon

/-- Witness for claim C4 (amended) at a concrete failing persist. -/
theorem claim_C4_amended_witness :
    (processFrame exWorld exAllOk (Collab.mk (.error ()) none (.error ()))
      (some (.obj (exChatFields "hello"))) "A" "u1" "t1" "s1").mgr = exWorld.mgr ∧
    ("B", processingError) ∈ (processFrame exWorld exAllOk
      (Collab.mk (.error ()) none (.error ()))
      (some (.obj (exChatFields "hello"))) "A" "u1" "t1" "s1").sent :=
  have h := claim_C4_amended exWorld exAllOk (Collab.mk (.error ()) none (.error ()))
    (exChatFields "hello") "A" "u1" "t1" "s1" "hello"
    (fun _ => rfl) rfl rfl (by decide)
  ⟨h.1, h.2.2.1 rfl ["A", "B"] "B" ⟨"B", "u2", "t1", "s1"⟩ (by decide) (by decide) (by decide)⟩

/-- Claim C5: a transport write failure never propagates out of
sendPersonal — its only effect is the disconnect of that connection — and
during a session fan-out a failure on connection A does not prevent
delivery to a working connection B, while A ends up removed from the
registry. -/
theorem claim_C5_partial_failure_isolation :
    (∀ (w : World) (so : String → Bool) (f : Frame) (cid : String) (i : ConnectionInfo),
      w.mgr.connections cid = some i → so cid = false →
      sendPersonal w so f cid = { w with mgr := w.mgr.disconnect cid }) ∧
    (∀ (w : World) (so : String → Bool) (f : Frame) (s A B : String)
       (iB : ConnectionInfo) (bucket : List String),
      w.mgr.session_connections s = some bucket →
      A ∈ bucket → so A = false →
      B ∈ bucket → so B = true → w.mgr.connections B = some iB →
      (B, f) ∈ (sendMessageToSession w so f s).sent ∧
      (sendMessageToSession w so f s).mgr.connections A = none) := by
  constructor
  · intro w so f cid i hcon hfail
    unfold sendPersonal
    rw [hcon, if_neg (by rw [hfail]; exact Bool.false_ne_true)]
  · intro w so f s A B iB bucket hb hA hfailA hB hokB hconB
    constructor
    · exact sendMessageToSession_delivers w so f s B iB bucket hb hB hokB hconB
    · rw [sendMessageToSession_eq w so f s bucket hb]
      exact sessionFold_removes so f bucket A hfailA w hA

/-- Witness for claim C5 on the concrete two-connection session. -/
theorem claim_C5_witness :
    sendPersonal exWorld exFailA Frame.pong "A" =
      { exWorld with mgr := exWorld.mgr.disconnect "A" } ∧
    ("B", Frame.pong) ∈ (sendMessageToSession exWorld exFailA Frame.pong "s1").sent ∧
    (sendMessageToSession exWorld exFailA Frame.pong "s1").mgr.connections "A" = none :=
  have h2 := claim_C5_partial_failure_isolation.2 exWorld exFailA Frame.pong "s1" "A" "B"
    ⟨"B", "u2", "t1", "s1"⟩ ["A", "B"] (by decide) (by decide) (by decide)
    (by decide) (by decide) (by decide)
  ⟨claim_C5_partial_failure_isolation.1 exWorld exFailA Frame.pong "A"
    ⟨"A", "u1", "t1", "s1"⟩ (by decide) (by decide), h2.1, h2.2⟩

/-- Claim C6: sendToSession attempts delivery exactly on the snapshot of
bySession[s] taken at call time — every newly delivered frame goes to a
snapshot member, every live snapshot member with a working transport
receives the frame, connections outside the snapshot are untouched, and an
absent session key makes the call a no-op. -/
theorem claim_C6_snapshot_fanout
    (w : World) (so : String → Bool) (f : Frame) (s : String) :
    (∀ bucket, w.mgr.session_connections s = some bucket →
       (∀ p ∈ (sendMessageToSession w so f s).sent,
          p ∈ w.sent ∨ (p.1 ∈ bucket ∧ p.2 = f)) ∧
       (∀ c, c ∈ bucket → so c = true → (∃ i, w.mgr.connections c = some i) →
          (c, f) ∈ (sendMessageToSession w so f s).sent) ∧
       (∀ c, c ∉ bucket →
          (sendMessageToSession w so f s).mgr.connections c = w.mgr.connections c)) ∧
    (w.mgr.session_connections s = none → sendMessageToSession w so f s = w) := by
  constructor
  · intro bucket hb
    refine ⟨?_, ?_, ?_⟩
    · intro p hp
      rw [sendMessageToSession_eq w so f s bucket hb] at hp
      exact sessionFold_sent_delta so f bucket p w hp
    · intro c hm hok hex
      rw [sendMessageToSession_eq w so f s bucket hb]
      exact sessionFold_delivers so f bucket c hok w hm hex
    · intro c hnot
      rw [sendMessageToSession_eq w so f s bucket hb]
      exact sessionFold_connections_notin so f bucket c hnot w
  · intro hb
    unfold sendMessageToSession
    rw [hb]

/-- Witness for claim C6: the snapshot member B receives the frame. -/
theorem claim_C6_witness :
    ("B", Frame.pong) ∈ (sendMessageToSession exWorld exAllOk Frame.pong "s1").sent :=
  ((claim_C6_snapshot_fanout exWorld exAllOk Frame.pong "s1").1 ["A", "B"]
    (by decide)).2.1 "B" (by decide) rfl ⟨⟨"B", "u2", "t1", "s1"⟩, by decide⟩

/-- Claim C8: disconnect is idempotent — unknown ids are a no-op,
disconnecting twice equals disconnecting once, and the records and index
memberships of every other connection are unchanged. -/
theorem claim_C8_disconnect_idempotent (m : Manager) (cid : String) :
    (m.connections cid = none → m.disconnect cid = m) ∧
    (m.disconnect cid).disconnect cid = m.disconnect cid ∧
    (∀ c, c ≠ cid → (m.disconnect cid).connections c = m.connections c) ∧
    (∀ k c, c ≠ cid →
      (InBucket (m.disconnect cid).user_connections k c ↔
         InBucket m.user_connections k c) ∧
      (InBucket (m.disconnect cid).session_connections k c ↔
         InBucket m.session_connections k c) ∧
      (InBucket (m.disconnect cid).tenant_connections k c ↔
         InBucket m.tenant_connections k c)) :=
  ⟨disconnect_unknown m cid, disconnect_disconnect m cid,
   fun c h => disconnect_connections_ne m cid c h,
   fun k c h => disconnect_inBucket_ne m cid k c h⟩

/-- Witness for claim C8 on the concrete registry. -/
theorem claim_C8_witness :
    exManager.disconnect "zz" = exManager ∧
    (exManager.disconnect "A").disconnect "A" = exManager.disconnect "A" ∧
    (exManager.disconnect "A").connections "B" = exManager.connections "B" :=
  ⟨(claim_C8_disconnect_idempotent exManager "zz").1 (by decide),
   (claim_C8_disconnect_idempotent exManager "A").2.1,
   (claim_C8_disconnect_idempotent exManager "A").2.2.1 "B" (by decide)⟩

/-- Claim C9: a chat frame whose text payload strips to the empty string
is a complete no-op — no persistence call, no outbound frame, no registry
change; the resulting world is the input world. -/
theorem claim_C9_empty_message_noop
    (w : World) (so : String → Bool) (collab : Collab)
    (fields : List (String × Json)) (cid u t s content : String)
    (hchat : isType (jget fields "type") "chat" = true)
    (hcontent : getMessageContent (.obj fields) = .ok content)
    (hempty : pyStrip content = "") :
    processFrame w so collab (some (.obj fields)) cid u t s = w := by
  rw [processFrame_chat w so collab fields cid u t s hchat]
  exact handleChat_noop w so collab (.obj fields) u t s content hcontent hempty

/-- Witness for claim C9 on a whitespace-only message. -/
theorem claim_C9_witness :
    processFrame exWorld exAllOk (Collab.mk (.ok "mid1") none (.ok "aid1"))
      (some (.obj (exChatFields "   "))) "A" "u1" "t1" "s1" = exWorld :=
  claim_C9_empty_message_noop exWorld exAllOk (Collab.mk (.ok "mid1") none (.ok "aid1"))
    (exChatFields "   ") "A" "u1" "t1" "s1" "   " rfl rfl (by decide)

/-- Claim C10: a decoded frame whose top-level JSON value is not an object
is answered with exactly one SERVER_ERROR Error frame to the originating
connection (not INVALID_JSON, not INVALID_MESSAGE_TYPE), and the registry
is unchanged so the loop continues. -/
theorem claim_C10_non_object_server_error
    (w : World) (so : String → Bool) (collab : Collab) (j : Json)
    (cid u t s : String) (hnotobj : j.isObj = false) :
    processFrame w so collab (some j) cid u t s =
      sendErrorMessage w so cid "Internal server error" "SERVER_ERROR" ∧
    (∀ i, w.mgr.connections cid = some i → so cid = true →
      (processFrame w so collab (some j) cid u t s).sent =
        w.sent ++ [(cid, Frame.error "Internal server error" "SERVER_ERROR")] ∧
      (processFrame w so collab (some j) cid u t s).mgr = w.mgr) := by
  have he : processFrame w so collab (some j) cid u t s =
      sendErrorMessage w so cid "Internal server error" "SERVER_ERROR" := by
    cases j with
    | obj fields => simp [Json.isObj] at hnotobj
    | null => rfl
    | bool b => rfl
    | num n => rfl
    | str s2 => rfl
    | arr items => rfl
  refine ⟨he, ?_⟩
  intro i hcon hok
  rw [he]
  unfold sendErrorMessage
  exact ⟨sendPersonal_delivers w so _ cid i hcon hok,
         sendPersonal_mgr_of_sendOk w so _ cid hok⟩

/-- Witness for claim C10 on a top-level JSON array. -/
theorem claim_C10_witness :
    processFrame exWorld exAllOk (Collab.mk (.ok "mid1") none (.ok "aid1"))
      (some (.arr [])) "A" "u1" "t1" "s1" =
      sendErrorMessage exWorld exAllOk "A" "Internal server error" "SERVER_ERROR" ∧
    (processFrame exWorld exAllOk (Collab.mk (.ok "mid1") none (.ok "aid1"))
      (some (.arr [])) "A" "u1" "t1" "s1").sent =
      exWorld.sent ++ [("A", Frame.error "Internal server error" "SERVER_ERROR")] :=
  have h := claim_C10_non_object_server_error exWorld exAllOk
    (Collab.mk (.ok "mid1") none (.ok "aid1")) (.arr []) "A" "u1" "t1" "s1" rfl
  ⟨h.1, (h.2 ⟨"A", "u1", "t1", "s1"⟩ (by decide) rfl).1⟩


theorem broadcastTypingIndicator_eq (w : World) (so : String → Bool)
    (user_id session_id : String) (is_typing : Json) (conn_ids : List String)
    (h : w.mgr.session_connections session_id = some conn_ids) :
    broadcastTypingIndicator w so user_id session_id is_typing =
      typingLoop so user_id (Frame.typing user_id is_typing session_id)
        session_id conn_ids w := by
  unfold broadcastTypingIndicator
  rw [h]

theorem typingLoop_sent_mem (so : String → Bool) (u : String) (message : Frame)
    (sess : String) (l : List String) (p : String × Frame) :
    ∀ w : World, p ∈ w.sent → p ∈ (typingLoop so u message sess l w).sent := by
  induction l with
  | nil => intro w h; exact h
  | cons hd tl ih =>
    intro w h
    cases hcon : w.mgr.connections hd with
    | none =>
      simp only [typingLoop, hcon]
      exact ih w h
    | some info =>
      simp only [typingLoop, hcon]
      by_cases hu : info.user_id ≠ u
      · rw [if_pos hu]
        by_cases hok : so hd = true
        · rw [if_pos hok]
          exact ih _ (List.mem_append_left _ h)
        · rw [if_neg hok]
          by_cases hsid : info.session_id = sess
          · rw [if_pos hsid]
            exact h
          · rw [if_neg hsid]
            exact ih _ h
      · rw [if_neg hu]
        exact ih w h

theorem typingLoop_sent_delta (so : String → Bool) (u : String) (message : Frame)
    (sess : String) (l : List String) (p : String × Frame) :
    ∀ w : World, p ∈ (typingLoop so u message sess l w).sent →
      p ∈ w.sent ∨
        ∃ info, w.mgr.connections p.1 = some info ∧ info.user_id ≠ u ∧ p.2 = message := by
  induction l with
  | nil => intro w h; exact Or.inl h
  | cons hd tl ih =>
    intro w h
    cases hcon : w.mgr.connections hd with
    | none =>
      simp only [typingLoop, hcon] at h
      exact ih w h
    | some info =>
      simp only [typingLoop, hcon] at h
      by_cases hu : info.user_id ≠ u
      · rw [if_pos hu] at h
        by_cases hok : so hd = true
        · rw [if_pos hok] at h
          rcases ih _ h with h1 | ⟨info2, hcon2, hu2, hp2⟩
          · rcases List.mem_append.mp h1 with h2 | h2
            · exact Or.inl h2
            · have h3 := List.mem_singleton.mp h2
              refine Or.inr ⟨info, ?_, hu, ?_⟩
              · rw [h3]
                exact hcon
              · rw [h3]
          · exact Or.inr ⟨info2, hcon2, hu2, hp2⟩
        · rw [if_neg hok] at h
          by_cases hsid : info.session_id = sess
          · rw [if_pos hsid] at h
            exact Or.inl h
          · rw [if_neg hsid] at h
            rcases ih _ h with h1 | ⟨info2, hcon2, hu2, hp2⟩
            · exact Or.inl h1
            · exact Or.inr
                ⟨info2, disconnect_connections_le w.mgr hd p.1 info2 hcon2, hu2, hp2⟩
      · rw [if_neg hu] at h
        exact ih w h

theorem typingLoop_delivers_all (so : String → Bool) (u : String) (message : Frame)
    (sess : String) (l : List String) (c : String) (i : ConnectionInfo) :
    ∀ w : World,
      (∀ c' i', c' ∈ l → w.mgr.connections c' = some i' → i'.user_id ≠ u → so c' = true) →
      c ∈ l → w.mgr.connections c = some i → i.user_id ≠ u →
      (c, message) ∈ (typingLoop so u message sess l w).sent := by
  induction l with
  | nil =>
    intro w _ hmem _ _
    exact absurd hmem (List.not_mem_nil c)
  | cons hd tl ih =>
    intro w hgood hmem hcon hu
    cases hconhd : w.mgr.connections hd with
    | none =>
      simp only [typingLoop, hconhd]
      have hc : c ≠ hd := by
        intro he
        rw [he, hconhd] at hcon
        exact Option.noConfusion hcon
      have htl : c ∈ tl := by
        rcases List.mem_cons.mp hmem with h | h
        · exact absurd h hc
        · exact h
      exact ih w (fun c' i' h1 h2 h3 => hgood c' i' (List.mem_cons_of_mem hd h1) h2 h3)
        htl hcon hu
    | some info =>
      simp only [typingLoop, hconhd]
      by_cases huhd : info.user_id ≠ u
      · rw [if_pos huhd]
        have hok : so hd = true := hgood hd info (List.mem_cons_self hd tl) hconhd huhd
        rw [if_pos hok]
        by_cases hc : c = hd
        · subst hc
          refine typingLoop_sent_mem so u message sess tl (c, message) _ ?_
          exact List.mem_append_right _ (List.mem_singleton.mpr rfl)
        · have htl : c ∈ tl := by
            rcases List.mem_cons.mp hmem with h | h
            · exact absurd h hc
            · exact h
          exact ih _ (fun c' i' h1 h2 h3 => hgood c' i' (List.mem_cons_of_mem hd h1) h2 h3)
            htl hcon hu
      · rw [if_neg huhd]
        have hc : c ≠ hd := by
          intro he
          rw [he, hconhd] at hcon
          injection hcon with h0
          rw [← h0] at hu
          exact huhd hu
        have htl : c ∈ tl := by
          rcases List.mem_cons.mp hmem with h | h
          · exact absurd h hc
          · exact h
        exact ih w (fun c' i' h1 h2 h3 => hgood c' i' (List.mem_cons_of_mem hd h1) h2 h3)
          htl hcon hu

/-- Claim C7, as stated, is false on the code: the typing fan-out iterates
the live session set, so when the write to the different-user connection B
fails, B is disconnected, the set shrinks mid-iteration and the loop is
aborted by the resulting RuntimeError — connection C, a different-user
member with a working transport, receives nothing (no frame is delivered
at all), and B is indeed removed from the registry. -/
theorem claim_C7_counterexample :
    exTypingWorld.mgr.session_connections "s1" = some ["A", "B", "C"] ∧
    exTypingWorld.mgr.connections "C" = some ⟨"C", "u3", "t1", "s1"⟩ ∧
    ("u3" : String) ≠ "u1" ∧
    exTypingFail "C" = true ∧
    (broadcastTypingIndicator exTypingWorld exTypingFail "u1" "s1"
      (Json.bool true)).sent.isEmpty = true ∧
    (broadcastTypingIndicator exTypingWorld exTypingFail "u1" "s1"
      (Json.bool true)).mgr.connections "B" = none := by
  decide

/-- Claim C7 (amended): the typing broadcast never delivers to a
connection whose record carries the sender user id, the exclusion being
evaluated per connection record (every additional connection of the same
user is excluded too); and provided the transport write succeeds for every
session connection whose record carries a different user id, all such
connections receive the Typing frame.  (A failing write disconnects that
member and aborts the iteration over the live session set, so members not
yet visited receive nothing.) -/
theorem claim_C7_amended
    (w : World) (so : String → Bool) (u s : String) (v : Json) :
    (∀ c i, w.mgr.connections c = some i → i.user_id = u →
      ∀ fr, (c, fr) ∈ (broadcastTypingIndicator w so u s v).sent → (c, fr) ∈ w.sent) ∧
    (∀ bucket, w.mgr.session_connections s = some bucket →
      (∀ c' i', c' ∈ bucket → w.mgr.connections c' = some i' → i'.user_id ≠ u →
        so c' = true) →
      ∀ c i, c ∈ bucket → w.mgr.connections c = some i → i.user_id ≠ u →
        (c, Frame.typing u v s) ∈ (broadcastTypingIndicator w so u s v).sent) := by
  constructor
  · intro c i hcon hiu fr hmem
    cases hb : w.mgr.session_connections s with
    | none =>
      unfold broadcastTypingIndicator at hmem
      rw [hb] at hmem
      exact hmem
    | some bucket =>
      rw [broadcastTypingIndicator_eq w so u s v bucket hb] at hmem
      rcases typingLoop_sent_delta so u _ s bucket (c, fr) w hmem with h1 | ⟨info, hcon2, hu2, -⟩
      · exact h1
      · have hcon2b : w.mgr.connections c = some info := hcon2
        rw [hcon] at hcon2b
        injection hcon2b with h0
        subst h0
        exact absurd hiu hu2
  · intro bucket hb hgood c i hm hcon hu
    rw [broadcastTypingIndicator_eq w so u s v bucket hb]
    exact typingLoop_delivers_all so u _ s bucket c i w hgood hm hcon hu

/-- Witness for claim C7 (amended): with every transport working, the
other user receives the typing frame. -/
theorem claim_C7_amended_witness :
    ("B", Frame.typing "u1" (Json.bool true) "s1") ∈
      (broadcastTypingIndicator exWorld exAllOk "u1" "s1" (Json.bool true)).sent :=
  (claim_C7_amended exWorld exAllOk "u1" "s1" (Json.bool true)).2
    ["A", "B"] (by decide) (fun c' i' h1 h2 h3 => rfl)
    "B" ⟨"B", "u2", "t1", "s1"⟩ (by decide) (by decide) (by decide)

end WS
